import Mathlib

/-!
Verification of the deterministic core of the prompt-engineering notebook
repository.  The notebooks wire prompt templates to a remote chat-completion
endpoint; the locally computed parts embedded here are:

* the regex extraction helper from the chaining notebook
  (re.search of an isolated four-digit run),
* the bounded retry loop robust_number_generation,
* PromptTemplate rendering (substitution of named placeholders),
* story_chain and dynamic_qa, which sequence template renders and model calls,
* the in-memory session-history store of the length-management notebook,
* the Person pydantic model of the structured-output notebook.

Remote model calls are modelled as explicit oracle functions; a call that
raises is an oracle returning an error value.
-/

namespace Promptimize

/-! ## Word characters, digits, and the search for an isolated 4-digit run

The chaining notebook defines

  def extract_number(text):
      match = re.search(r"\b\d{4}\b", text)
      return match.group() if match else None

A word character for the boundary assertion is alphanumeric or underscore;
the pattern matches four digit characters whose neighbours (when they exist)
are not word characters.  re.search returns the leftmost match. -/

def isWordChar (c : Char) : Bool :=
  c.isAlphanum || c = '_'

/-- The condition that the regex pattern of four digits between word
boundaries matches the character list s at start index i. -/
def isolatedAt (s : List Char) (i : Nat) : Bool :=
  decide (i + 4 ≤ s.length) &&
  ((s.drop i).take 4).all Char.isDigit &&
  (match i with
   | 0 => true
   | j + 1 =>
     match s.get? j with
     | some c => !isWordChar c
     | none => true) &&
  (match s.get? (i + 4) with
   | some c => !isWordChar c
   | none => true)

/-- Leftmost index at or after a, among the next n candidates, at which the
predicate holds.  This realises the leftmost-match rule of re.search. -/
def findFirst (p : Nat → Bool) : Nat → Nat → Option Nat
  | 0, _ => none
  | n + 1, a => if p a then some a else findFirst p n (a + 1)

/-- Embedding of extract_number: the first isolated four-digit run of the
text, or none when the regex does not match. -/
def extract_number (text : String) : Option String :=
  match findFirst (isolatedAt text.data) text.data.length 0 with
  | some i => some (String.mk ((text.data.drop i).take 4))
  | none => none

/-! ## PromptTemplate rendering

The notebooks build langchain PromptTemplate values, strings with named
placeholders written between braces, rendered by substituting the values
supplied at invoke time. -/

structure PromptTemplate where
  input_variables : List String
  template : String

/-- Reads a placeholder name up to the closing brace; returns the name and
the remainder of the character list after the brace. -/
def splitVar : List Char → Option (List Char × List Char)
  | [] => none
  | c :: rest =>
    if c = '\x7d' then some ([], rest)
    else
      match splitVar rest with
      | some (n, r) => some (c :: n, r)
      | none => none

/-- Value bound to a placeholder name in the invoke argument map. -/
def lookupVar (vals : List (String × String)) (n : String) : String :=
  match vals.find? (fun p => p.1 = n) with
  | some p => p.2
  | none => ""

/-- Substitution engine on character lists; the fuel argument starts at the
length of the list and dominates it throughout, so the zero-fuel branch is
never taken on the initial call. -/
def renderFuel (vals : List (String × String)) : Nat → List Char → List Char
  | 0, _ => []
  | _ + 1, [] => []
  | fuel + 1, c :: rest =>
    if c = '\x7b' then
      match splitVar rest with
      | some (n, r) => (lookupVar vals (String.mk n)).data ++ renderFuel vals fuel r
      | none => c :: renderFuel vals fuel rest
    else c :: renderFuel vals fuel rest

/-- Rendering a PromptTemplate with an assignment of its input variables. -/
def render (t : PromptTemplate) (vals : List (String × String)) : String :=
  String.mk (renderFuel vals t.template.data.length t.template.data)

/-! ## The concrete templates of the chaining notebook -/

def story_prompt : PromptTemplate :=
  { input_variables := ["genre"]
    template := "Write a short {genre} story in 3-4 sentences." }

def summary_prompt : PromptTemplate :=
  { input_variables := ["story"]
    template := "Summarize the following story in one sentence:\n{story}" }

def answer_prompt : PromptTemplate :=
  { input_variables := ["question"]
    template := "Answer the following question concisely:\n{question}" }

def follow_up_prompt : PromptTemplate :=
  { input_variables := ["question", "answer"]
    template := "Based on the question \x27{question}\x27 and the answer \x27{answer}\x27, generate a relevant follow-up question." }

def generate_prompt : PromptTemplate :=
  { input_variables := ["topic"]
    template := "Generate a 4-digit number related to the topic: {topic}. Respond with ONLY the number, no additional text." }

def validate_prompt : PromptTemplate :=
  { input_variables := ["number", "topic"]
    template := "Is the number {number} truly related to the topic \x27{topic}\x27? Answer with \x27Yes\x27 or \x27No\x27 and explain why." }

/-! ## The bounded retry loop robust_number_generation

The notebook loops attempt = 0 .. max_attempts - 1.  Each attempt invokes
the generation chain, extracts a four-digit number (raising ValueError when
extraction fails), invokes the validation chain, and returns the number when
the validation answer lowercased starts with yes; any exception of the body
is caught and the loop moves to the next attempt.  After the loop it returns
a fixed failure sentinel.

The two model calls of attempt i are oracles gen i and val i applied to the
rendered prompt; an oracle returning Except.error models a raised
exception. -/

def sentinel : String :=
  "Failed to generate a valid number after multiple attempts."

/-- Embedding of validation.lower().startswith("yes"): lowercase the answer
character by character and test whether it begins with the three letters of
yes. -/
def lowerStartsYes (validation : String) : Bool :=
  match validation.data.map Char.toLower with
  | 'y' :: 'e' :: 's' :: _ => true
  | _ => false

/-- The rendered generation prompt of the loop body. -/
def genPromptFor (topic : String) : String :=
  render generate_prompt [("topic", topic)]

/-- The rendered validation prompt of the loop body. -/
def valPromptFor (number topic : String) : String :=
  render validate_prompt [("number", number), ("topic", topic)]

/-- Outcome of the body of attempt i: some number when the attempt returns
that number, none when the body falls through to the next attempt (a raised
and caught exception, failed extraction, or a validation answer that does
not start with yes). -/
def attemptResult (gen val : Nat → String → Except String String)
    (topic : String) (i : Nat) : Option String :=
  match gen i (genPromptFor topic) with
  | .error _ => none
  | .ok response =>
    match extract_number response with
    | none => none
    | some number =>
      match val i (valPromptFor number topic) with
      | .error _ => none
      | .ok validation =>
        if lowerStartsYes validation then some number else none

/-- The retry loop; fuel is the number of remaining attempts, attempt the
index of the next attempt.  Returns the result string together with the
number of attempts performed. -/
def robustGo (gen val : Nat → String → Except String String) (topic : String) :
    Nat → Nat → String × Nat
  | 0, attempt => (sentinel, attempt)
  | fuel + 1, attempt =>
    match gen attempt (genPromptFor topic) with
    | .error _ => robustGo gen val topic fuel (attempt + 1)
    | .ok response =>
      match extract_number response with
      | none => robustGo gen val topic fuel (attempt + 1)
      | some number =>
        match val attempt (valPromptFor number topic) with
        | .error _ => robustGo gen val topic fuel (attempt + 1)
        | .ok validation =>
          if lowerStartsYes validation then (number, attempt + 1)
          else robustGo gen val topic fuel (attempt + 1)

/-- Embedding of robust_number_generation (the notebook calls it with the
default max_attempts = 3). -/
def robust_number_generation (gen val : Nat → String → Except String String)
    (topic : String) (max_attempts : Nat) : String :=
  (robustGo gen val topic max_attempts 0).1

/-- Number of generation attempts the loop performs. -/
def attemptsUsed (gen val : Nat → String → Except String String)
    (topic : String) (max_attempts : Nat) : Nat :=
  (robustGo gen val topic max_attempts 0).2

/-! ## story_chain

story = (story_prompt | llm).invoke with the genre, then
summary = (summary_prompt | llm).invoke with the full story; the pair is
returned.  The oracle llm maps a rendered prompt to the model response; the
returned log lists the calls in the order they were issued, each with its
response. -/

def callLLM (llm : String → String) (log : List (String × String))
    (prompt : String) : String × List (String × String) :=
  (llm prompt, log ++ [(prompt, llm prompt)])

/-- Embedding of story_chain, returning the (story, summary) pair and the
ordered call log. -/
def story_chain (llm : String → String) (genre : String) :
    (String × String) × List (String × String) :=
  let first := callLLM llm [] (render story_prompt [("genre", genre)])
  let second := callLLM llm first.2 (render summary_prompt [("story", first.1)])
  ((first.1, second.1), second.2)

/-! ## dynamic_qa

The notebook iterates num_follow_ups + 1 times: answer the current question,
append the question/answer pair, and on all but the last iteration replace
the current question by a generated follow-up. -/

structure QA where
  question : String
  answer : String
deriving DecidableEq

/-- One loop of dynamic_qa; the numeric argument is the number of follow-up
questions still to be generated after the current iteration. -/
def dqaGo (llm : String → String) (q : String) : Nat → List QA
  | 0 => [⟨q, llm (render answer_prompt [("question", q)])⟩]
  | k + 1 =>
    let a := llm (render answer_prompt [("question", q)])
    ⟨q, a⟩ ::
      dqaGo llm (llm (render follow_up_prompt [("question", q), ("answer", a)])) k

/-- Embedding of dynamic_qa (the notebook calls it with the default
num_follow_ups = 3). -/
def dynamic_qa (llm : String → String) (initial_question : String)
    (num_follow_ups : Nat) : List QA :=
  dqaGo llm initial_question num_follow_ups

/-! ## The session-history store

class InMemoryHistory holds a list of messages; add_messages extends it.
A module-level dict store maps session ids to histories, and
get_by_session_id inserts a fresh empty history on first access and returns
the history of the id.  Python mutation of the shared history object is
embedded as explicit state passing on the store. -/

structure InMemoryHistory where
  messages : List String
deriving DecidableEq

/-- The store is the module-level dict, insertion ordered. -/
abbrev Store : Type := List (String × InMemoryHistory)

/-- Dict membership and lookup of the store. -/
def lookupStore : Store → String → Option InMemoryHistory
  | [], _ => none
  | (k, h) :: rest, sid => if k = sid then some h else lookupStore rest sid

/-- Embedding of get_by_session_id: the possibly extended store together
with the history of the session id. -/
def get_by_session_id (st : Store) (sid : String) : Store × InMemoryHistory :=
  match lookupStore st sid with
  | some h => (st, h)
  | none => (st ++ [(sid, ⟨[]⟩)], ⟨[]⟩)

/-- Embedding of InMemoryHistory.add_messages on the history of session id
sid inside the store: self.messages.extend(messages). -/
def add_messages : Store → String → List String → Store
  | [], _, _ => []
  | (k, h) :: rest, sid, ms =>
    if k = sid then (k, ⟨h.messages ++ ms⟩) :: rest
    else (k, h) :: add_messages rest sid ms

/-- Applying a sequence of add_messages calls for one session id. -/
def addAll (st : Store) (sid : String) (mss : List (List String)) : Store :=
  mss.foldl (fun acc ms => add_messages acc sid ms) st

/-! ## The Person model of the structured-output notebook

class Person(BaseModel) with fields name : str, date_of_birth : datetime
(described as ISO 8601 format YYYY-MM-DD) and occupation : str.  Building a
Person from keyword arguments runs pydantic validation: a missing required
field is an error, an extra keyword is ignored, a string supplied for the
datetime field is parsed, giving midnight of the given date. -/

structure PyDateTime where
  year : Nat
  month : Nat
  day : Nat
  hour : Nat
  minute : Nat
  second : Nat
deriving DecidableEq

/-- A Python value appearing in parsed tool-call arguments or as a Person
field value. -/
inductive PyVal where
  | str (s : String)
  | int (n : Int)
  | dt (d : PyDateTime)
deriving DecidableEq

structure Person where
  name : String
  date_of_birth : PyDateTime
  occupation : String
deriving DecidableEq

/-- Digit characters to the natural number they spell. -/
def digitsToNat (cs : List Char) : Nat :=
  cs.foldl (fun acc c => acc * 10 + (c.toNat - '0'.toNat)) 0

/-- Modelled from the spec: pydantic (a third-party dependency whose code is
not in the repository) coerces a string supplied for a datetime field by
parsing it; the notebook declares the ISO 8601 date form YYYY-MM-DD, which
parses to midnight of that date. -/
def parseISODate (s : String) : Option PyDateTime :=
  match s.data with
  | [y1, y2, y3, y4, '-', m1, m2, '-', d1, d2] =>
    if ([y1, y2, y3, y4, m1, m2, d1, d2].all Char.isDigit) then
      let m := digitsToNat [m1, m2]
      let d := digitsToNat [d1, d2]
      if 1 ≤ m ∧ m ≤ 12 ∧ 1 ≤ d ∧ d ≤ 31 then
        some ⟨digitsToNat [y1, y2, y3, y4], m, d, 0, 0, 0⟩
      else none
    else none
  | _ => none

/-- Pydantic coercion of an argument value into a str field. -/
def coerceStr : PyVal → Except String String
  | .str s => .ok s
  | _ => .error "Input should be a valid string"

/-- Pydantic coercion of an argument value into the datetime field. -/
def coerceDatetime : PyVal → Except String PyDateTime
  | .dt d => .ok d
  | .str s =>
    match parseISODate s with
    | some d => .ok d
    | none => .error "Input should be a valid datetime"
  | .int _ => .error "Input should be a valid datetime"

/-- First binding of a keyword in the argument list. -/
def getArg (args : List (String × PyVal)) (k : String) : Option PyVal :=
  match args.find? (fun p => p.1 = k) with
  | some p => some p.2
  | none => none

/-- Pydantic validation run by Person(**arguments): each required field must
be present and coercible; extra keywords are ignored. -/
def Person.fromArgs (args : List (String × PyVal)) : Except String Person :=
  match getArg args "name" with
  | none => .error "name: Field required"
  | some v =>
    match coerceStr v with
    | .error e => .error e
    | .ok name =>
      match getArg args "date_of_birth" with
      | none => .error "date_of_birth: Field required"
      | some v =>
        match coerceDatetime v with
        | .error e => .error e
        | .ok dob =>
          match getArg args "occupation" with
          | none => .error "occupation: Field required"
          | some v =>
            match coerceStr v with
            | .error e => .error e
            | .ok occupation => .ok ⟨name, dob, occupation⟩

/-- Reading back a Person field as the Python value an attribute access
yields. -/
def Person.readField (p : Person) (k : String) : Option PyVal :=
  if k = "name" then some (.str p.name)
  else if k = "date_of_birth" then some (.dt p.date_of_birth)
  else if k = "occupation" then some (.str p.occupation)
  else none

/-- The parsed tool-call arguments of the notebook example. -/
def harryArgs : List (String × PyVal) :=
  [("name", .str "Harry Potter"),
   ("date_of_birth", .str "1980-07-31"),
   ("occupation", .str "Wizard")]

/-- Embedding of the get_person_info stub, which calls
Person(name = empty, age = 0, occupation = empty). -/
def get_person_info : Except String Person :=
  Person.fromArgs [("name", .str ""), ("age", .int 0), ("occupation", .str "")]

/-! ## Concrete oracles used to instantiate the general theorems -/

/-- A model that echoes the prompt back. -/
def echoLLM : String → String := fun s => s

/-- A generation oracle that always answers with the string 1954. -/
def okGen : Nat → String → Except String String := fun _ _ => .ok "1954"

/-- A validation oracle that always answers affirmatively. -/
def okVal : Nat → String → Except String String :=
  fun _ _ => .ok "Yes, because it is the year of the battle."

/-! # Theorems -/

theorem findFirst_none_iff (p : Nat → Bool) :
    ∀ n a, findFirst p n a = none ↔ ∀ i, a ≤ i → i < a + n → p i = false := by
  intro n
  induction n with
  | zero =>
    intro a
    constructor
    · intro _ i h1 h2
      omega
    · intro _
      rfl
  | succ n ih =>
    intro a
    constructor
    · intro h i h1 h2
      by_cases hpa : p a = true
      · simp [findFirst, hpa] at h
      · have hpa' : p a = false := by
          cases hv : p a
          · rfl
          · exact absurd hv hpa
        rw [findFirst, hpa'] at h
        simp only [Bool.false_eq_true, if_false] at h
        rcases Nat.eq_or_lt_of_le h1 with heq | hlt
        · exact heq ▸ hpa'
        · exact (ih (a + 1)).mp h i hlt (by omega)
    · intro h
      have hpa : p a = false := h a (Nat.le_refl a) (by omega)
      rw [findFirst, hpa]
      simp only [Bool.false_eq_true, if_false]
      exact (ih (a + 1)).mpr (fun i h1 h2 => h i (by omega) (by omega))

theorem findFirst_some (p : Nat → Bool) :
    ∀ n a i, findFirst p n a = some i →
      a ≤ i ∧ i < a + n ∧ p i = true ∧ ∀ k, a ≤ k → k < i → p k = false := by
  intro n
  induction n with
  | zero =>
    intro a i h
    exact absurd h (by simp [findFirst])
  | succ n ih =>
    intro a i h
    by_cases hpa : p a = true
    · rw [findFirst, hpa] at h
      simp only [if_true, Option.some.injEq] at h
      subst h
      exact ⟨Nat.le_refl a, by omega, hpa, fun k h1 h2 => by omega⟩
    · have hpa' : p a = false := by
        cases hv : p a
        · rfl
        · exact absurd hv hpa
      rw [findFirst, hpa'] at h
      simp only [Bool.false_eq_true, if_false] at h
      obtain ⟨h1, h2, h3, h4⟩ := ih (a + 1) i h
      refine ⟨by omega, by omega, h3, fun k hk1 hk2 => ?_⟩
      rcases Nat.eq_or_lt_of_le hk1 with heq | hlt
      · exact heq ▸ hpa'
      · exact h4 k hlt hk2

theorem findFirst_eq_some (p : Nat → Bool) :
    ∀ n a i, a ≤ i → i < a + n → p i = true →
      (∀ k, a ≤ k → k < i → p k = false) → findFirst p n a = some i := by
  intro n
  induction n with
  | zero =>
    intro a i h1 h2
    omega
  | succ n ih =>
    intro a i h1 h2 h3 h4
    rcases Nat.eq_or_lt_of_le h1 with heq | hlt
    · subst heq
      rw [findFirst, h3]
      rfl
    · have hpa : p a = false := h4 a (Nat.le_refl a) hlt
      rw [findFirst, hpa]
      simp only [Bool.false_eq_true, if_false]
      exact ih (a + 1) i hlt (by omega) h3 (fun k hk1 hk2 => h4 k (by omega) hk2)

theorem isolatedAt_le (s : List Char) (i : Nat) (h : isolatedAt s i = true) :
    i + 4 ≤ s.length := by
  unfold isolatedAt at h
  simp only [Bool.and_eq_true, decide_eq_true_eq] at h
  exact h.1.1.1

theorem isolatedAt_digits (s : List Char) (i : Nat) (h : isolatedAt s i = true) :
    ((s.drop i).take 4).all Char.isDigit = true := by
  unfold isolatedAt at h
  simp only [Bool.and_eq_true, decide_eq_true_eq] at h
  exact h.1.1.2

theorem extract_number_none_iff (text : String) :
    extract_number text = none ↔ ∀ i, isolatedAt text.data i = false := by
  unfold extract_number
  cases h : findFirst (isolatedAt text.data) text.data.length 0 with
  | none =>
    simp only [true_iff]
    intro i
    by_cases hi : i < text.data.length
    · exact (findFirst_none_iff _ _ _).mp h i (Nat.zero_le i) (by omega)
    · cases hv : isolatedAt text.data i
      · rfl
      · have := isolatedAt_le _ _ hv
        omega
  | some j =>
    obtain ⟨_, _, hj, _⟩ := findFirst_some _ _ _ _ h
    constructor
    · intro hc
      simp at hc
    · intro hall
      have hfalse := hall j
      rw [hj] at hfalse
      simp at hfalse

theorem extract_number_first (text : String) (j : Nat)
    (hj : isolatedAt text.data j = true)
    (hmin : ∀ k, k < j → isolatedAt text.data k = false) :
    extract_number text = some (String.mk ((text.data.drop j).take 4)) := by
  have hlen : j < text.data.length := by
    have := isolatedAt_le _ _ hj
    omega
  unfold extract_number
  rw [findFirst_eq_some (isolatedAt text.data) text.data.length 0 j (Nat.zero_le j)
    (by omega) hj (fun k _ hk => hmin k hk)]

theorem extract_number_shape (text : String) (r : String)
    (h : extract_number text = some r) :
    r.length = 4 ∧ r.data.all Char.isDigit = true := by
  unfold extract_number at h
  cases hf : findFirst (isolatedAt text.data) text.data.length 0 with
  | none => rw [hf] at h; exact absurd h (by simp)
  | some i =>
    rw [hf] at h
    simp only [Option.some.injEq] at h
    subst h
    obtain ⟨_, _, hi, _⟩ := findFirst_some _ _ _ _ hf
    have hle := isolatedAt_le _ _ hi
    constructor
    · show (String.mk ((text.data.drop i).take 4)).data.length = 4
      simp only [List.length_take, List.length_drop]
      omega
    · exact isolatedAt_digits _ _ hi

/-- C1: extract_number returns none exactly when the input has no isolated
four-digit run (four digit characters whose neighbours are not word
characters), and otherwise returns the leftmost such run; in particular it
maps "The answer is 1954." to "1954" and "no digits here" to none. -/
theorem extract_number_spec (s : String) :
    (extract_number s = none ↔ ∀ i, isolatedAt s.data i = false) ∧
    (∀ j, isolatedAt s.data j = true →
      (∀ k, k < j → isolatedAt s.data k = false) →
      extract_number s = some (String.mk ((s.data.drop j).take 4))) ∧
    extract_number "The answer is 1954." = some "1954" ∧
    extract_number "no digits here" = none :=
  ⟨extract_number_none_iff s, fun j hj hmin => extract_number_first s j hj hmin,
   by decide, by decide⟩

/-- Witness for C1: the leftmost isolated four-digit run of the example
sentence starts at index 14 and is returned by extract_number. -/
theorem extract_number_spec_witness :
    extract_number "The answer is 1954." =
      some (String.mk (((String.data "The answer is 1954.").drop 14).take 4)) :=
  (extract_number_spec "The answer is 1954.").2.1 14 (by decide) (by decide)

theorem robustGo_succ (gen val : Nat → String → Except String String)
    (topic : String) (fuel a : Nat) :
    robustGo gen val topic (fuel + 1) a =
      match attemptResult gen val topic a with
      | some num => (num, a + 1)
      | none => robustGo gen val topic fuel (a + 1) := by
  cases hg : gen a (genPromptFor topic) with
  | error e => simp [robustGo, attemptResult, hg]
  | ok response =>
    cases he : extract_number response with
    | none => simp [robustGo, attemptResult, hg, he]
    | some number =>
      cases hv : val a (valPromptFor number topic) with
      | error e => simp [robustGo, attemptResult, hg, he, hv]
      | ok validation =>
        cases hy : lowerStartsYes validation with
        | false => simp [robustGo, attemptResult, hg, he, hv, hy]
        | true => simp [robustGo, attemptResult, hg, he, hv, hy]

theorem attemptResult_some_shape (gen val : Nat → String → Except String String)
    (topic : String) (i : Nat) (num : String)
    (h : attemptResult gen val topic i = some num) :
    num.length = 4 ∧ num.data.all Char.isDigit = true := by
  cases hg : gen i (genPromptFor topic) with
  | error e => simp [attemptResult, hg] at h
  | ok response =>
    cases he : extract_number response with
    | none => simp [attemptResult, hg, he] at h
    | some number =>
      cases hv : val i (valPromptFor number topic) with
      | error e => simp [attemptResult, hg, he, hv] at h
      | ok validation =>
        cases hy : lowerStartsYes validation with
        | false => simp [attemptResult, hg, he, hv, hy] at h
        | true =>
          simp only [attemptResult, hg, he, hv, hy, if_true, Option.some.injEq] at h
          subst h
          exact extract_number_shape response _ he

theorem robustGo_bound (gen val : Nat → String → Except String String)
    (topic : String) : ∀ fuel a, (robustGo gen val topic fuel a).2 ≤ a + fuel := by
  intro fuel
  induction fuel with
  | zero =>
    intro a
    simp [robustGo]
  | succ fuel ih =>
    intro a
    cases h : attemptResult gen val topic a with
    | some num =>
      rw [robustGo_succ, h]
      dsimp only
      omega
    | none =>
      rw [robustGo_succ, h]
      dsimp only
      have := ih (a + 1)
      omega

theorem robustGo_shape (gen val : Nat → String → Except String String)
    (topic : String) : ∀ fuel a,
    (robustGo gen val topic fuel a).1 = sentinel ∨
    ((robustGo gen val topic fuel a).1.length = 4 ∧
     (robustGo gen val topic fuel a).1.data.all Char.isDigit = true) := by
  intro fuel
  induction fuel with
  | zero =>
    intro a
    left
    rfl
  | succ fuel ih =>
    intro a
    cases h : attemptResult gen val topic a with
    | some num =>
      rw [robustGo_succ, h]
      right
      exact attemptResult_some_shape gen val topic a num h
    | none =>
      rw [robustGo_succ, h]
      exact ih (a + 1)

theorem sentinel_not_four : sentinel.length ≠ 4 := by decide

theorem robustGo_sentinel_iff (gen val : Nat → String → Except String String)
    (topic : String) : ∀ fuel a,
    (robustGo gen val topic fuel a).1 = sentinel ↔
      ∀ i, a ≤ i → i < a + fuel → attemptResult gen val topic i = none := by
  intro fuel
  induction fuel with
  | zero =>
    intro a
    constructor
    · intro _ i h1 h2
      omega
    · intro _
      rfl
  | succ fuel ih =>
    intro a
    cases h : attemptResult gen val topic a with
    | some num =>
      rw [robustGo_succ, h]
      dsimp only
      constructor
      · intro hnum
        have hs := (attemptResult_some_shape gen val topic a num h).1
        rw [hnum] at hs
        exact absurd hs sentinel_not_four
      · intro hall
        have := hall a (Nat.le_refl a) (by omega)
        rw [h] at this
        simp at this
    | none =>
      rw [robustGo_succ, h]
      dsimp only
      rw [ih (a + 1)]
      constructor
      · intro hall i h1 h2
        rcases Nat.eq_or_lt_of_le h1 with heq | hlt
        · exact heq ▸ h
        · exact hall i hlt (by omega)
      · intro hall i h1 h2
        exact hall i (by omega) (by omega)

theorem robustGo_first (gen val : Nat → String → Except String String)
    (topic : String) : ∀ fuel a j num, a ≤ j → j < a + fuel →
    attemptResult gen val topic j = some num →
    (∀ k, a ≤ k → k < j → attemptResult gen val topic k = none) →
    robustGo gen val topic fuel a = (num, j + 1) := by
  intro fuel
  induction fuel with
  | zero =>
    intro a j num h1 h2
    omega
  | succ fuel ih =>
    intro a j num h1 h2 h3 h4
    rcases Nat.eq_or_lt_of_le h1 with heq | hlt
    · subst heq
      rw [robustGo_succ, h3]
    · have ha : attemptResult gen val topic a = none := h4 a (Nat.le_refl a) hlt
      rw [robustGo_succ, ha]
      exact ih (a + 1) j num hlt (by omega) h3 (fun k hk1 hk2 => h4 k (by omega) hk2)

/-- C2: for every topic, every max_attempts and every behaviour of the two
model-call oracles, including raising calls, the retry loop performs at most
max_attempts attempts and returns either a string of exactly four digit
characters or the literal failure sentinel; totality of the embedding is the
absence of an uncaught exception. -/
theorem robust_number_generation_bounded
    (gen val : Nat → String → Except String String) (topic : String)
    (max_attempts : Nat) :
    attemptsUsed gen val topic max_attempts ≤ max_attempts ∧
    (robust_number_generation gen val topic max_attempts = sentinel ∨
     ((robust_number_generation gen val topic max_attempts).length = 4 ∧
      (robust_number_generation gen val topic max_attempts).data.all
        Char.isDigit = true)) := by
  constructor
  · have := robustGo_bound gen val topic max_attempts 0
    simpa [attemptsUsed] using this
  · exact robustGo_shape gen val topic max_attempts 0

/-- C4: the loop returns the sentinel exactly when every one of the
max_attempts attempts fails (a raised call, a failed extraction, or a
validation answer not starting with yes make an attempt fail and the loop
proceed); when some attempt succeeds, the result is the number extracted at
the earliest successful attempt. -/
theorem robust_number_generation_success_iff
    (gen val : Nat → String → Except String String) (topic : String)
    (max_attempts : Nat) :
    (robust_number_generation gen val topic max_attempts = sentinel ↔
      ∀ i, i < max_attempts → attemptResult gen val topic i = none) ∧
    (∀ j num, j < max_attempts → attemptResult gen val topic j = some num →
      (∀ k, k < j → attemptResult gen val topic k = none) →
      robust_number_generation gen val topic max_attempts = num) := by
  constructor
  · rw [robust_number_generation, robustGo_sentinel_iff gen val topic max_attempts 0]
    constructor
    · intro hall i hi
      exact hall i (Nat.zero_le i) (by omega)
    · intro hall i _ hi
      exact hall i (by omega)
  · intro j num hj hsome hmin
    rw [robust_number_generation,
      robustGo_first gen val topic max_attempts 0 j num (Nat.zero_le j) (by omega)
        hsome (fun k _ hk => hmin k hk)]

/-- Witness for C4: with a generator that always answers 1954 and a
validator that answers affirmatively, the first attempt succeeds and the
loop returns 1954. -/
theorem robust_number_generation_success_iff_witness :
    robust_number_generation okGen okVal "Dien Bien Phu" 3 = "1954" :=
  (robust_number_generation_success_iff okGen okVal "Dien Bien Phu" 3).2 0 "1954"
    (by decide) (by decide) (by decide)

/-- C5: rendering a template is deterministic: two renders of the same
template with the same assignment of its input variables produce identical
strings (rendering has no state in the embedding, so the two results
coincide). -/
theorem render_deterministic (t : PromptTemplate) (vals : List (String × String))
    (r₁ r₂ : String) (h₁ : r₁ = render t vals) (h₂ : r₂ = render t vals) :
    r₁ = r₂ :=
  h₁.trans h₂.symm

/-- Witness for C5 at the story template of the chaining notebook. -/
theorem render_deterministic_witness :
    render story_prompt [("genre", "science fiction")] =
      render story_prompt [("genre", "science fiction")] :=
  render_deterministic story_prompt [("genre", "science fiction")]
    (render story_prompt [("genre", "science fiction")])
    (render story_prompt [("genre", "science fiction")]) rfl rfl

/-- C7: story_chain renders the story template with the genre, sends it,
renders the summary template with the entire returned story, sends that, and
returns the pair; the call log records exactly those two calls, in that
order, with the first response embedded in the second prompt. -/
theorem story_chain_spec (llm : String → String) (genre : String) :
    (story_chain llm genre).1.1 = llm (render story_prompt [("genre", genre)]) ∧
    (story_chain llm genre).1.2 =
      llm (render summary_prompt
        [("story", llm (render story_prompt [("genre", genre)]))]) ∧
    (story_chain llm genre).2 =
      [(render story_prompt [("genre", genre)],
        llm (render story_prompt [("genre", genre)])),
       (render summary_prompt
          [("story", llm (render story_prompt [("genre", genre)]))],
        llm (render summary_prompt
          [("story", llm (render story_prompt [("genre", genre)]))]))] :=
  ⟨rfl, rfl, rfl⟩

theorem dqaGo_length (llm : String → String) :
    ∀ k q, (dqaGo llm q k).length = k + 1 := by
  intro k
  induction k with
  | zero =>
    intro q
    rfl
  | succ k ih =>
    intro q
    simp only [dqaGo, List.length_cons, ih]

theorem dqaGo_head (llm : String → String) (q : String) (k : Nat) :
    (dqaGo llm q k).get? 0 =
      some ⟨q, llm (render answer_prompt [("question", q)])⟩ := by
  cases k with
  | zero => rfl
  | succ k => rfl

theorem dqaGo_chain (llm : String → String) :
    ∀ k q i qa qa', (dqaGo llm q k).get? i = some qa →
      (dqaGo llm q k).get? (i + 1) = some qa' →
      qa'.question = llm (render follow_up_prompt
        [("question", qa.question), ("answer", qa.answer)]) := by
  intro k
  induction k with
  | zero =>
    intro q i qa qa' h1 h2
    cases i with
    | zero => exact absurd h2 (by simp [dqaGo])
    | succ i => exact absurd h1 (by simp [dqaGo])
  | succ k ih =>
    intro q i qa qa' h1 h2
    simp only [dqaGo] at h1 h2
    cases i with
    | zero =>
      simp only [List.get?] at h1
      have hqa : qa = ⟨q, llm (render answer_prompt [("question", q)])⟩ := by
        cases h1
        rfl
      simp only [List.get?] at h2
      rw [dqaGo_head] at h2
      have hqa' : qa' =
          ⟨llm (render follow_up_prompt [("question", q),
            ("answer", llm (render answer_prompt [("question", q)]))]),
           llm (render answer_prompt [("question",
            llm (render follow_up_prompt [("question", q),
              ("answer", llm (render answer_prompt [("question", q)]))]))])⟩ := by
        cases h2
        rfl
      rw [hqa, hqa']
    | succ i =>
      simp only [List.get?] at h1 h2
      exact ih _ i qa qa' h1 h2

/-- C10: dynamic_qa produces exactly num_follow_ups + 1 question/answer
entries; the first entry carries the initial question, and every later
entry's question is the follow-up generated from the question and answer of
the entry immediately before it. -/
theorem dynamic_qa_spec (llm : String → String) (initial_question : String)
    (num_follow_ups : Nat) :
    (dynamic_qa llm initial_question num_follow_ups).length = num_follow_ups + 1 ∧
    (∀ qa, (dynamic_qa llm initial_question num_follow_ups).get? 0 = some qa →
      qa.question = initial_question) ∧
    (∀ i qa qa',
      (dynamic_qa llm initial_question num_follow_ups).get? i = some qa →
      (dynamic_qa llm initial_question num_follow_ups).get? (i + 1) = some qa' →
      qa'.question = llm (render follow_up_prompt
        [("question", qa.question), ("answer", qa.answer)])) := by
  refine ⟨dqaGo_length llm num_follow_ups initial_question, ?_, ?_⟩
  · intro qa h
    rw [dynamic_qa, dqaGo_head] at h
    cases h
    rfl
  · intro i qa qa' h1 h2
    exact dqaGo_chain llm num_follow_ups initial_question i qa qa' h1 h2

/-- Witness for C10 with the echoing model, one follow-up, and the initial
question Q: the second entry's question is the rendered follow-up prompt
built from the first entry. -/
theorem dynamic_qa_spec_witness :
    (QA.mk
      "Based on the question \x27Q\x27 and the answer \x27Answer the following question concisely:\nQ\x27, generate a relevant follow-up question."
      "Answer the following question concisely:\nBased on the question \x27Q\x27 and the answer \x27Answer the following question concisely:\nQ\x27, generate a relevant follow-up question.").question =
    echoLLM (render follow_up_prompt
      [("question", "Q"),
       ("answer", "Answer the following question concisely:\nQ")]) :=
  (dynamic_qa_spec echoLLM "Q" 1).2.2 0
    ⟨"Q", "Answer the following question concisely:\nQ"⟩
    ⟨"Based on the question \x27Q\x27 and the answer \x27Answer the following question concisely:\nQ\x27, generate a relevant follow-up question.",
     "Answer the following question concisely:\nBased on the question \x27Q\x27 and the answer \x27Answer the following question concisely:\nQ\x27, generate a relevant follow-up question."⟩
    (by rfl) (by rfl)

theorem lookupStore_append_single (s t : String) (x : InMemoryHistory)
    (hst : s ≠ t) :
    ∀ st : Store, lookupStore (st ++ [(s, x)]) t = lookupStore st t := by
  intro st
  induction st with
  | nil =>
    simp only [List.nil_append, lookupStore]
    rw [if_neg hst]
  | cons p rest ih =>
    obtain ⟨k, v⟩ := p
    simp only [List.cons_append, lookupStore]
    by_cases hk : k = t
    · rw [if_pos hk, if_pos hk]
    · rw [if_neg hk, if_neg hk]
      exact ih

theorem lookupStore_append_self (sid : String) (x : InMemoryHistory) :
    ∀ st : Store, lookupStore st sid = none →
      lookupStore (st ++ [(sid, x)]) sid = some x := by
  intro st
  induction st with
  | nil =>
    intro _
    simp [lookupStore]
  | cons p rest ih =>
    obtain ⟨k, v⟩ := p
    intro h
    simp only [lookupStore] at h
    by_cases hk : k = sid
    · rw [if_pos hk] at h
      exact absurd h (by simp)
    · rw [if_neg hk] at h
      simp only [List.cons_append, lookupStore, if_neg hk]
      exact ih h

theorem lookupStore_get (st : Store) (sid : String) :
    lookupStore (get_by_session_id st sid).1 sid =
      some (get_by_session_id st sid).2 := by
  cases h : lookupStore st sid with
  | some hist => simp [get_by_session_id, h]
  | none =>
    simp only [get_by_session_id, h]
    exact lookupStore_append_self sid ⟨[]⟩ st h

theorem get_of_lookup_some (st : Store) (sid : String) (h : InMemoryHistory)
    (hl : lookupStore st sid = some h) :
    get_by_session_id st sid = (st, h) := by
  simp [get_by_session_id, hl]

theorem add_messages_lookup (sid : String) (ms : List String)
    (h : InMemoryHistory) :
    ∀ st : Store, lookupStore st sid = some h →
      lookupStore (add_messages st sid ms) sid = some ⟨h.messages ++ ms⟩ := by
  intro st
  induction st with
  | nil =>
    intro hl
    exact absurd hl (by simp [lookupStore])
  | cons p rest ih =>
    obtain ⟨k, v⟩ := p
    intro hl
    simp only [lookupStore] at hl
    by_cases hk : k = sid
    · rw [if_pos hk] at hl
      have hv : v = h := by
        cases hl
        rfl
      simp only [add_messages, if_pos hk, lookupStore, if_pos hk, hv]
    · rw [if_neg hk] at hl
      simp only [add_messages, if_neg hk, lookupStore, if_neg hk]
      exact ih hl

theorem add_messages_frame (s t : String) (ms : List String) (hst : s ≠ t) :
    ∀ st : Store, lookupStore (add_messages st s ms) t = lookupStore st t := by
  intro st
  induction st with
  | nil => rfl
  | cons p rest ih =>
    obtain ⟨k, v⟩ := p
    by_cases hk : k = s
    · have hkt : k ≠ t := fun h => hst (hk ▸ h)
      simp only [add_messages, if_pos hk, lookupStore, if_neg hkt]
    · simp only [add_messages, if_neg hk, lookupStore]
      by_cases hkt : k = t
      · rw [if_pos hkt, if_pos hkt]
      · rw [if_neg hkt, if_neg hkt]
        exact ih

theorem addAll_lookup (sid : String) :
    ∀ (mss : List (List String)) (st : Store) (h : InMemoryHistory),
      lookupStore st sid = some h →
      lookupStore (addAll st sid mss) sid = some ⟨h.messages ++ mss.flatten⟩ := by
  intro mss
  induction mss with
  | nil =>
    intro st h hl
    simpa [addAll] using hl
  | cons ms rest ih =>
    intro st h hl
    have step := add_messages_lookup sid ms h st hl
    have := ih (add_messages st sid ms) ⟨h.messages ++ ms⟩ step
    simpa [addAll, List.append_assoc] using this

theorem addAll_frame (s t : String) (hst : s ≠ t) :
    ∀ (mss : List (List String)) (st : Store),
      lookupStore (addAll st s mss) t = lookupStore st t := by
  intro mss
  induction mss with
  | nil =>
    intro st
    rfl
  | cons ms rest ih =>
    intro st
    have := ih (add_messages st s ms)
    rw [addAll] at this ⊢
    simp only [List.foldl_cons] at this ⊢
    rw [this, add_messages_frame s t ms hst st]

theorem get_snd_lookup (st : Store) (t : String) :
    (get_by_session_id st t).2 = (lookupStore st t).getD ⟨[]⟩ := by
  cases h : lookupStore st t with
  | some hist => simp [get_by_session_id, h]
  | none => simp [get_by_session_id, h]

/-- C6: the store keeps one ordered message list per session id with no
eviction: a first access creates an empty history at the end of the store, a
repeated access returns the same store and the same history, and any
sequence of add_messages calls appends at the end, so every previously
stored message stays present in its original order. -/
theorem session_history_spec (st : Store) (sid : String) :
    (lookupStore st sid = none →
      get_by_session_id st sid = (st ++ [(sid, ⟨[]⟩)], ⟨[]⟩)) ∧
    get_by_session_id (get_by_session_id st sid).1 sid = get_by_session_id st sid ∧
    (∀ h, lookupStore st sid = some h → ∀ mss,
      lookupStore (addAll st sid mss) sid = some ⟨h.messages ++ mss.flatten⟩) := by
  refine ⟨?_, ?_, ?_⟩
  · intro h
    simp [get_by_session_id, h]
  · have hl := lookupStore_get st sid
    rw [get_of_lookup_some _ sid _ hl]
  · intro h hl mss
    exact addAll_lookup sid mss st h hl

/-- Witness for C6: one stored message survives two further add_messages
calls in order. -/
theorem session_history_spec_witness :
    lookupStore (addAll [("a", ⟨["m1"]⟩)] "a" [["m2"], ["m3"]]) "a" =
      some ⟨["m1", "m2", "m3"]⟩ :=
  (session_history_spec [("a", ⟨["m1"]⟩)] "a").2.2 ⟨["m1"]⟩ rfl [["m2"], ["m3"]]

/-- C9: adding messages to the history of one session id, after obtaining
that history via get_by_session_id, leaves the messages of every other
session id unchanged. -/
theorem session_history_frame (st : Store) (s t : String) (hst : s ≠ t)
    (mss : List (List String)) :
    (get_by_session_id (addAll (get_by_session_id st s).1 s mss) t).2 =
      (get_by_session_id st t).2 := by
  rw [get_snd_lookup, get_snd_lookup,
    addAll_frame s t hst mss (get_by_session_id st s).1]
  cases h : lookupStore st s with
  | some hist => rw [get_of_lookup_some st s hist h]
  | none =>
    simp only [get_by_session_id, h]
    rw [lookupStore_append_single s t ⟨[]⟩ hst st]

/-- Witness for C9: creating and filling session a does not change the
(empty) messages of session b. -/
theorem session_history_frame_witness :
    (get_by_session_id (addAll (get_by_session_id [] "a").1 "a" [["x"]]) "b").2 =
      (get_by_session_id [] "b").2 :=
  session_history_frame [] "a" "b" (by decide) [["x"]]

/-- C8: the get_person_info stub supplies name, age and occupation but not
the required date_of_birth field, so pydantic validation fails on every
invocation and no Person is ever returned. -/
theorem get_person_info_raises :
    get_person_info = Except.error "date_of_birth: Field required" := rfl

/-- Counterexample to C3: the Person built from the example tool-call
arguments reads back its date_of_birth as the datetime value for midnight of
1980-07-31, which differs from the original string value 1980-07-31; the
claim that all three values are reproduced unchanged is false. -/
theorem person_roundtrip_counterexample :
    Person.fromArgs harryArgs =
      Except.ok ⟨"Harry Potter", ⟨1980, 7, 31, 0, 0, 0⟩, "Wizard"⟩ ∧
    Person.readField ⟨"Harry Potter", ⟨1980, 7, 31, 0, 0, 0⟩, "Wizard"⟩
      "date_of_birth" = some (PyVal.dt ⟨1980, 7, 31, 0, 0, 0⟩) ∧
    decide (some (PyVal.dt ⟨1980, 7, 31, 0, 0, 0⟩) =
      some (PyVal.str "1980-07-31")) = false :=
  ⟨rfl, rfl, by decide⟩

/-- C3 amended: constructing a Person from the parsed arguments succeeds and
reproduces name and occupation unchanged, while the date_of_birth string is
coerced by the datetime-typed field into the datetime for midnight of the
same date 1980-07-31 rather than kept as the string. -/
theorem person_roundtrip_amended :
    ∃ p, Person.fromArgs harryArgs = Except.ok p ∧
      p.name = "Harry Potter" ∧
      p.occupation = "Wizard" ∧
      p.date_of_birth = ⟨1980, 7, 31, 0, 0, 0⟩ :=
  ⟨⟨"Harry Potter", ⟨1980, 7, 31, 0, 0, 0⟩, "Wizard"⟩, rfl, rfl, rfl, rfl⟩

end Promptimize
